import Mathlib

/-!
Verification of the archive-conversion subsystem.

Shallow embedding of `src/converters/archive_converters.py` (the
Universal-Converter repository) and proofs about its claims.

External collaborators (the `zipfile`, `tarfile`, `py7zr`, `rarfile`,
`pyminizip` libraries and the external `7z` / `rar` command-line tools)
are modelled as oracles carried in an `Env` record; the module's own
control flow, argument construction, fallback ordering and temporary
directory lifecycle are embedded faithfully from the Python source.
-/

namespace ArchiveConv

/-! String helpers: models of the Python string/path primitives used. -/

/-- ASCII lower-casing of a character, model of Python `str.lower` per char. -/
def lowerChar (c : Char) : Char :=
  if 'A' ≤ c ∧ c ≤ 'Z' then Char.ofNat (c.toNat + 32) else c

/-- Model of Python `str.lower()` (ASCII). -/
def pyLower (s : String) : String := ⟨s.data.map lowerChar⟩

/-- Model of Python `str.endswith(suffix)`. -/
def pyEndsWith (s suffix : String) : Bool := suffix.data.isSuffixOf s.data

/-- Model of Python truthiness for an optional string (`if password:`):
`None` and the empty string are falsy. -/
def pyTruthy : Option String → Bool
  | none => false
  | some s => !(s == "")

/-- Characters of the last path component (after the last `/`),
model of `pathlib.PurePath.name`. -/
def lastComponent (cs : List Char) : List Char :=
  cs.foldl (fun acc c => if c = '/' then [] else acc ++ [c]) []

/-- Index of the last `.` in a character list, if any. -/
def lastDotIndex (cs : List Char) : Option Nat :=
  (cs.foldl (fun (p : Nat × Option Nat) c =>
    (p.1 + 1, if c = '.' then some p.1 else p.2)) (0, none)).2

/-- Model of `pathlib.Path(p).suffix`: the extension of the final
component, from its last dot, empty when the dot is absent, leading, or
trailing. -/
def pathSuffix (p : String) : String :=
  let name := lastComponent p.data
  match lastDotIndex name with
  | none => ""
  | some i => if 0 < i ∧ i < name.length - 1 then ⟨name.drop i⟩ else ""

/-! Pure model of ZIP directory round-tripping (C3).

`_zip_directory` walks the source directory and writes one member per
file, with the path relative to the source directory as the member name
and the (deflate-)compressed bytes as its payload; `extract_archive` on a
ZIP writes every member's decompressed payload to the member name under
the output directory.  A directory is modelled by the traversal output:
the list of (relative name, byte content) pairs, in walk order. -/

/-- One member of a ZIP archive: name and stored (compressed) payload. -/
structure ZipEntry where
  name : String
  content : List Nat
deriving DecidableEq, Repr

/-- Model of `_zip_directory` on the walk output `walkFiles` of the
source directory: each file becomes a member named by its relative path,
with payload produced by the backend's compressor `comp`. -/
def zipDirectoryEntries (comp : List Nat → List Nat)
    (walkFiles : List (String × List Nat)) : List ZipEntry :=
  walkFiles.map (fun f => ⟨f.1, comp f.2⟩)

/-- Model of `zipfile.ZipFile.extractall`: one file written per member,
decompressed by the backend's decompressor `decomp`, in member order. -/
def extractAllZip (decomp : List Nat → List Nat)
    (entries : List ZipEntry) : List (String × List Nat) :=
  entries.map (fun e => (e.name, decomp e.content))

/-- The content a sequence of file writes leaves at name `n`
(later writes overwrite earlier ones). -/
def lastWrite (files : List (String × List Nat)) (n : String) :
    Option (List Nat) :=
  ((files.filter (fun f => f.1 = n)).getLast?).map (fun f => f.2)

theorem lastWrite_eq_of_perm {l₁ l₂ : List (String × List Nat)} (n : String)
    (hperm : l₁.Perm l₂) (hnd : (l₂.map Prod.fst).Nodup) :
    lastWrite l₁ n = lastWrite l₂ n := by
  unfold lastWrite
  have hpf : (l₁.filter (fun f => f.1 = n)).Perm
      (l₂.filter (fun f => f.1 = n)) := hperm.filter _
  have hlen : (l₂.filter (fun f => f.1 = n)).length ≤ 1 := by
    by_contra hgt
    push_neg at hgt
    match hf : l₂.filter (fun f => f.1 = n) with
    | [] => rw [hf] at hgt; simp at hgt
    | [a] => rw [hf] at hgt; simp at hgt
    | a :: b :: rest =>
      have hsub : (a :: b :: rest).Sublist l₂ := by
        rw [← hf]; exact List.filter_sublist _
      have hndsub : ((a :: b :: rest).map Prod.fst).Nodup :=
        List.Nodup.sublist (List.Sublist.map Prod.fst hsub) hnd
      have ha : a ∈ l₂.filter (fun f => f.1 = n) := by rw [hf]; simp
      have hb : b ∈ l₂.filter (fun f => f.1 = n) := by rw [hf]; simp
      have ha1 : a.1 = n := by
        have := List.of_mem_filter ha; simpa using this
      have hb1 : b.1 = n := by
        have := List.of_mem_filter hb; simpa using this
      simp [List.map_cons, List.nodup_cons] at hndsub
      exact hndsub.1.1 (ha1.trans hb1.symm)
  have heq : l₁.filter (fun f => f.1 = n) = l₂.filter (fun f => f.1 = n) := by
    match hf : l₂.filter (fun f => f.1 = n) with
    | [] =>
      have := hpf; rw [hf] at this
      rw [hf]; exact List.Perm.eq_nil this
    | [a] =>
      have := hpf; rw [hf] at this
      rw [hf]; exact List.perm_singleton.mp this
    | a :: b :: rest =>
      rw [hf] at hlen; simp at hlen
  rw [heq]

/-- Claim C3: For every finite file set (relative names and byte contents)
under a source directory, zipping with `_zip_directory` (no password) and
extracting with `extract_archive` round-trips: assuming the backend's
decompressor inverts its compressor (zlib deflate is lossless), the
extracted file set equals the input set as a multiset of (name, content)
pairs — independent of member ordering — and, when the input names are
distinct (as relative paths in one directory are), the content finally on
disk at any name `n` equals the input content at `n`. -/
theorem zip_roundtrip_preserves_files
    (comp decomp : List Nat → List Nat)
    (hinv : ∀ b, decomp (comp b) = b)
    (walkFiles : List (String × List Nat))
    (entries : List ZipEntry)
    (hperm : entries.Perm (zipDirectoryEntries comp walkFiles))
    (hnd : (walkFiles.map Prod.fst).Nodup)
    (n : String) :
    (extractAllZip decomp entries : Multiset (String × List Nat)) =
      (walkFiles : Multiset (String × List Nat)) ∧
    lastWrite (extractAllZip decomp entries) n = lastWrite walkFiles n := by
  have hex : (extractAllZip decomp entries).Perm walkFiles := by
    have h1 : (extractAllZip decomp entries).Perm
        (extractAllZip decomp (zipDirectoryEntries comp walkFiles)) :=
      hperm.map _
    have h2 : extractAllZip decomp (zipDirectoryEntries comp walkFiles)
        = walkFiles := by
      unfold extractAllZip zipDirectoryEntries
      rw [List.map_map]
      have : (fun e : ZipEntry => (e.name, decomp e.content)) ∘
          (fun f : String × List Nat => ZipEntry.mk f.1 (comp f.2))
          = fun f : String × List Nat => (f.1, decomp (comp f.2)) := rfl
      rw [this]
      conv_rhs => rw [(List.map_id walkFiles).symm]
      apply List.map_congr_left
      intro f _
      simp [hinv]
    rw [h2] at h1
    exact h1
  constructor
  · exact Quot.sound hex
  · exact lastWrite_eq_of_perm n hex hnd

/-- Witness for C3 at a concrete two-file directory. -/
theorem zip_roundtrip_preserves_files_witness :
    (extractAllZip id [⟨"a.txt", [104, 105]⟩, ⟨"b/c.txt", [119]⟩]
        : Multiset (String × List Nat)) =
      ([("a.txt", [104, 105]), ("b/c.txt", [119])]
        : Multiset (String × List Nat)) ∧
    lastWrite (extractAllZip id [⟨"a.txt", [104, 105]⟩, ⟨"b/c.txt", [119]⟩])
        "a.txt" =
      lastWrite [("a.txt", [104, 105]), ("b/c.txt", [119])] "a.txt" :=
  zip_roundtrip_preserves_files id id (fun _ => rfl)
    [("a.txt", [104, 105]), ("b/c.txt", [119])]
    [⟨"a.txt", [104, 105]⟩, ⟨"b/c.txt", [119]⟩]
    (by decide) (by decide) "a.txt"

/-! Effectful embedding of the module.

State: the set of filesystem paths in existence (`disk`) plus the trace
of backend invocations (`calls`).  Each Python function becomes a state
transformer returning `Except Err α`, exceptions modelled as `.error`.
`with tempfile.TemporaryDirectory()` is `withTempDir`: the directory is
created on entry and removed (with everything under it) on every exit,
which is exactly the Python context-manager semantics. -/

/-- Exceptions raised by third-party archive backends, classified the way
the spec's error taxonomy reads them: an explicit authentication failure
(`wrongPassword`), a parse/open failure (`corruptArchive`), or anything
else. -/
inductive BackendErr where
  | wrongPassword
  | corruptArchive
  | otherError (msg : String)
deriving DecidableEq, Repr

/-- Python-level exceptions observable from the embedded module. -/
inductive Err where
  | fileNotFound (path : String)
  | valueError (msg : String)
  | runtimeError (msg : String)
  | importError (modName : String)
  | calledProcessError (cmd : List String)
  | backend (e : BackendErr)
deriving DecidableEq, Repr

/-- LZMA filter dictionary entry, as built by `create_7z_archive`:
`{"id": py7zr.FILTER_LZMA2, "preset": compression_level}`. -/
structure LZMAFilter where
  id : String
  preset : Int
deriving DecidableEq, Repr

/-- One invocation of an external backend (library call or subprocess). -/
inductive BackendCall where
  | subprocessRun (cmd : List String) (cwd : Option String)
  | py7zrCreateCall (srcDir out : String) (password : Option String)
      (filters : List LZMAFilter)
  | pyminizipCompressCall (files : List String) (out : String)
      (password : String) (level : Int)
  | zipWriteCall (srcDir out : String) (compress : Bool)
      (files : List String)
deriving DecidableEq, Repr

/-- Oracles for everything outside the module: module availability,
`shutil.which`, and the behaviour of each backend on each input.
Extraction oracles return the member names on success. -/
structure Env where
  rarfileImported : Bool
  pyminizipImported : Bool
  which : String → Option String
  zipfileExtract : String → Option String → Except BackendErr (List String)
  py7zrExtract : String → Option String → Except BackendErr (List String)
  rarfileExtract : String → Option String → Except BackendErr (List String)
  tarfileExtract : String → Except BackendErr (List String)
  runTool : List String → Option String → Bool
  cliExtractMembers : String → List String
  py7zrCreate : Option String → List LZMAFilter → Except BackendErr Unit
  pyminizip : String → String → Int → Except BackendErr Unit
  zipList : String → Except String (List String × Nat)
  sevenZList : String → Except String (List String × Nat)
  rarList : String → Except String (List String × Nat)
  getsize : String → Nat

/-- Filesystem paths in existence plus the backend invocation trace. -/
structure St where
  disk : List String
  calls : List BackendCall
deriving Repr

/-- Prefix test on strings: `a` is a prefix of `b`. -/
def strIsPrefixOf (a b : String) : Bool := a.data.isPrefixOf b.data

/-- Test whether `p` lies in the tree rooted at directory `d` (is `d` or below it). -/
def isUnder (d p : String) : Bool := p == d || strIsPrefixOf (d ++ "/") p

/-- Model of `shutil.rmtree d`: every path at or under `d` disappears. -/
def rmTree (d : String) (disk : List String) : List String :=
  disk.filter (fun p => ! isUnder d p)

/-- No path at or under `d` exists on `disk`. -/
def diskClean (d : String) (disk : List String) : Bool :=
  disk.all (fun p => ! isUnder d p)

/-- Model of `os.path.exists`. -/
def pathExistsB (p : String) (disk : List String) : Bool := disk.contains p

def addPath (p : String) (s : St) : St := { s with disk := p :: s.disk }

/-- Model of `_ensure_dir` / `os.makedirs(path, exist_ok=True)`. -/
def ensureDirSt (p : String) (s : St) : St :=
  if pathExistsB p s.disk then s else addPath p s

/-- The files an extraction backend writes: one path per member name,
under the output directory. -/
def writeMembers (outDir : String) (names : List String) (s : St) : St :=
  { s with disk := names.foldl (fun d n => (outDir ++ "/" ++ n) :: d) s.disk }

def recordCall (c : BackendCall) (s : St) : St :=
  { s with calls := s.calls ++ [c] }

/-- The files `os.walk(dir)` reaches, read off the disk model. -/
def filesUnder (dir : String) (disk : List String) : List String :=
  disk.filter (fun p => strIsPrefixOf (dir ++ "/") p)

/-- Rough model of `pathlib.Path(p).parent` (used only as the argument
of `_ensure_dir`). -/
def pathParent (p : String) : String :=
  String.intercalate "/" ((p.splitOn "/").dropLast)

/-- Model of `with tempfile.TemporaryDirectory() as tmp`: `tmp` is
created on entry; on exit — normal return or exception — `tmp` and
everything under it are removed (`TemporaryDirectory.__exit__`). -/
def withTempDir {α : Type} (tmp : String)
    (body : St → Except Err α × St) (s : St) : Except Err α × St :=
  let p := body { s with disk := tmp :: s.disk }
  (p.1, { p.2 with disk := rmTree tmp p.2.disk })

/-- Model of `_detect_tool(candidates)` from the source: first candidate
resolvable on PATH via `shutil.which`, else `None`. -/
def detectTool (candidates : List String)
    (which : String → Option String) : Option String :=
  match candidates with
  | [] => none
  | n :: rest =>
    match which n with
    | some p => some p
    | none => detectTool rest which

/-! The functions of the module, embedded from the source. -/

/-- The `7z x` command vector built by `_extract_with_7z`:
`cmd = [sevenz, "x", "-y", f"-o{out_dir}", archive_path]`, with
`f"-p{password}"` inserted at index 2 when the password is truthy. -/
def sevenZExtractCmd (sevenz out_dir archive_path : String)
    (password : Option String) : List String :=
  let cmd := [sevenz, "x", "-y", "-o" ++ out_dir, archive_path]
  if pyTruthy password then cmd.insertIdx 2 ("-p" ++ password.getD "") else cmd

/-- Embedding of `_extract_with_7z(archive_path, out_dir, password)`:
resolve a 7-Zip CLI, raise `RuntimeError` when absent, otherwise run it;
a non-zero exit raises `CalledProcessError` (`subprocess.run(check=True)`). -/
def extractWith7z (env : Env) (archive_path out_dir : String)
    (password : Option String) : St → Except Err String × St := fun s =>
  match detectTool ["7z", "7za", "7zz"] env.which with
  | none =>
    (.error (.runtimeError
      "7-Zip (7z) not found. Install 7-Zip or add it to PATH."), s)
  | some sevenz =>
    let cmd := sevenZExtractCmd sevenz out_dir archive_path password
    let s := recordCall (.subprocessRun cmd none) s
    if env.runTool cmd none then
      (.ok out_dir, writeMembers out_dir (env.cliExtractMembers archive_path) s)
    else
      (.error (.calledProcessError cmd), s)

/-- Embedding of `extract_archive(file_path, out_dir, password)`:
dispatch on `file_path.lower().endswith(...)`; the `.rar` branch tries
the in-process `rarfile` reader first (when the module imported) and on
any exception falls through to `_extract_with_7z`; unknown extensions
try `_extract_with_7z` and report `ValueError` if that also fails. -/
def extract_archive (env : Env) (file_path out_dir : String)
    (password : Option String) : St → Except Err String × St := fun s =>
  let s := ensureDirSt out_dir s
  let lower := pyLower file_path
  if pyEndsWith lower ".zip" then
    match env.zipfileExtract file_path
        (if pyTruthy password then password else none) with
    | .ok names => (.ok out_dir, writeMembers out_dir names s)
    | .error e => (.error (.backend e), s)
  else if pyEndsWith lower ".tar" || pyEndsWith lower ".tar.gz"
      || pyEndsWith lower ".tgz" then
    match env.tarfileExtract file_path with
    | .ok names => (.ok out_dir, writeMembers out_dir names s)
    | .error e => (.error (.backend e), s)
  else if pyEndsWith lower ".rar" then
    if env.rarfileImported then
      match env.rarfileExtract file_path password with
      | .ok names => (.ok out_dir, writeMembers out_dir names s)
      | .error _ => extractWith7z env file_path out_dir password s
    else extractWith7z env file_path out_dir password s
  else
    match extractWith7z env file_path out_dir password s with
    | (.ok d, s') => (.ok d, s')
    | (.error _, s') =>
      (.error (.valueError
        ("Unsupported archive type or missing extractor: " ++ file_path)), s')

/-- Embedding of `extract_7z_archive(archive_path, out_dir, password)`:
the in-process `py7zr` reader, no fallback. -/
def extract_7z_archive (env : Env) (archive_path out_dir : String)
    (password : Option String) : St → Except Err String × St := fun s =>
  let s := ensureDirSt out_dir s
  match env.py7zrExtract archive_path password with
  | .ok names => (.ok out_dir, writeMembers out_dir names s)
  | .error e => (.error (.backend e), s)

/-- Embedding of `_zip_directory(src_dir, out_zip_path, compress)`: the
in-process `zipfile` writer over the walk of `src_dir`. -/
def zip_directory (src_dir out_zip_path : String) (compress : Bool) :
    St → Except Err String × St := fun s =>
  let s := ensureDirSt (pathParent out_zip_path) s
  let s := recordCall
    (.zipWriteCall src_dir out_zip_path compress (filesUnder src_dir s.disk)) s
  (.ok out_zip_path, addPath out_zip_path s)

/-- Embedding of `create_7z_archive(src_dir, out_7z_path, password,
compression_level)`: builds `filters = [{"id": FILTER_LZMA2, "preset":
compression_level}]` and hands it to `py7zr.SevenZipFile` unchanged. -/
def create_7z_archive (env : Env) (src_dir out_7z_path : String)
    (password : Option String) (compression_level : Int) :
    St → Except Err String × St := fun s =>
  let s := ensureDirSt (pathParent out_7z_path) s
  let filters := [LZMAFilter.mk "FILTER_LZMA2" compression_level]
  let s := recordCall (.py7zrCreateCall src_dir out_7z_path password filters) s
  match env.py7zrCreate password filters with
  | .ok _ => (.ok out_7z_path, addPath out_7z_path s)
  | .error e => (.error (.backend e), s)

/-- Embedding of `create_password_protected_zip(src_dir, out_zip_path,
password, compression_level)`: `import pyminizip` raises `ImportError`
when the module is absent; otherwise the walk of `src_dir` is handed to
`pyminizip.compress_multiple` together with the password and the
compression level, both unchanged. -/
def create_password_protected_zip (env : Env) (src_dir out_zip_path : String)
    (password : String) (compression_level : Int) :
    St → Except Err String × St := fun s =>
  if ¬ env.pyminizipImported then (.error (.importError "pyminizip"), s)
  else
    let s := ensureDirSt (pathParent out_zip_path) s
    let file_list := filesUnder src_dir s.disk
    let s := recordCall
      (.pyminizipCompressCall file_list out_zip_path password
        compression_level) s
    match env.pyminizip out_zip_path password compression_level with
    | .ok _ => (.ok out_zip_path, addPath out_zip_path s)
    | .error e => (.error (.backend e), s)

/-- Embedding of `create_password_zip_alternative(src_dir, out_zip_path,
password)`: requires a 7-Zip CLI (`RuntimeError` otherwise) and runs
`[sevenz, "a", "-tzip", f"-p{password}", out_zip_path, f"{src_dir}/*"]`. -/
def create_password_zip_alternative (env : Env)
    (src_dir out_zip_path password : String) :
    St → Except Err String × St := fun s =>
  match detectTool ["7z", "7za", "7zz"] env.which with
  | none =>
    (.error (.runtimeError "7-Zip required for password-protected archives"), s)
  | some sevenz =>
    let cmd := [sevenz, "a", "-tzip", "-p" ++ password, out_zip_path,
      src_dir ++ "/*"]
    let s := recordCall (.subprocessRun cmd none) s
    if env.runTool cmd none then
      (.ok out_zip_path, addPath out_zip_path s)
    else (.error (.calledProcessError cmd), s)

/-- Embedding of `rar_to_zip(rar_path, out_zip_path, password)`:
existence check, then inside a temporary directory: try the in-process
`rarfile` reader when available, fall back to `_extract_with_7z` on any
exception or when unavailable, and rezip the extraction with
`_zip_directory`.  `tmp` names the directory `tempfile` yields. -/
def rar_to_zip (env : Env) (rar_path out_zip_path : String)
    (password : Option String) (tmp : String) :
    St → Except Err String × St := fun s =>
  if ¬ pathExistsB rar_path s.disk then (.error (.fileNotFound rar_path), s)
  else
    withTempDir tmp (fun s =>
      let extract_dir := tmp ++ "/extracted"
      let s := ensureDirSt extract_dir s
      let afterExtract : Except Err Unit × St :=
        if env.rarfileImported then
          match env.rarfileExtract rar_path password with
          | .ok names => (.ok (), writeMembers extract_dir names s)
          | .error _ =>
            match extractWith7z env rar_path extract_dir password s with
            | (.ok _, s') => (.ok (), s')
            | (.error e, s') => (.error e, s')
        else
          match extractWith7z env rar_path extract_dir password s with
          | (.ok _, s') => (.ok (), s')
          | (.error e, s') => (.error e, s')
      match afterExtract with
      | (.error e, s') => (.error e, s')
      | (.ok _, s') => zip_directory extract_dir out_zip_path true s') s

/-- Embedding of `zip_to_rar(zip_path, out_rar_path, password,
volume_size)`: existence check on `zip_path` first, then the RAR CLI
lookup (`RuntimeError` when absent), then inside a temporary directory
the ZIP is extracted and `rar a -r -ep1 [-pPW] [-vSIZE] out .` is run
with `cwd` the extraction directory. -/
def zip_to_rar (env : Env) (zip_path out_rar_path : String)
    (password : Option String) (volume_size : Option String) (tmp : String) :
    St → Except Err String × St := fun s =>
  if ¬ pathExistsB zip_path s.disk then (.error (.fileNotFound zip_path), s)
  else
    match detectTool ["rar", "winrar", "WinRAR"] env.which with
    | none =>
      (.error (.runtimeError "RAR creation requires WinRAR (rar.exe) in PATH."),
        s)
    | some rar_cli =>
      withTempDir tmp (fun s =>
        let extract_dir := tmp ++ "/zip_extract"
        let s := ensureDirSt extract_dir s
        match env.zipfileExtract zip_path none with
        | .error e => (.error (.backend e), s)
        | .ok names =>
          let s := writeMembers extract_dir names s
          let cmd := [rar_cli, "a", "-r", "-ep1"]
            ++ (if pyTruthy password then ["-p" ++ password.getD ""] else [])
            ++ (if pyTruthy volume_size then ["-v" ++ volume_size.getD ""]
                else [])
            ++ [out_rar_path, "."]
          let s := recordCall (.subprocessRun cmd (some extract_dir)) s
          if env.runTool cmd (some extract_dir) then
            (.ok out_rar_path, addPath out_rar_path s)
          else (.error (.calledProcessError cmd), s)) s

/-- The extraction stage of `convert_archive_format` (source lines
123–131): dispatch on the lower-cased input suffix; `.zip` and `.rar` go
through `extract_archive`, `.7z` through `extract_7z_archive`, anything
else raises `ValueError`. -/
def convertExtractStage (env : Env) (input_ext input_path extract_dir : String)
    (password : Option String) : St → Except Err String × St := fun s =>
  if input_ext == ".zip" then extract_archive env input_path extract_dir password s
  else if input_ext == ".rar" then
    extract_archive env input_path extract_dir password s
  else if input_ext == ".7z" then
    extract_7z_archive env input_path extract_dir password s
  else (.error (.valueError ("Unsupported input format: " ++ input_ext)), s)

/-- Embedding of `convert_archive_format(input_path, output_path,
password, compression_level)`: classify both suffixes, extract into
`temp_dir/extracted` inside a `with TemporaryDirectory()` scope, then
re-compress into the output format; the `.rar` output branch hands
`zip_to_rar` the path `f"{extract_dir}.zip"`.  `tmp` names the outer
temporary directory, `tmpRar` the one `zip_to_rar` would create. -/
def convert_archive_format (env : Env) (input_path output_path : String)
    (password : Option String) (compression_level : Int) (tmp tmpRar : String) :
    St → Except Err String × St := fun s =>
  let input_ext := pyLower (pathSuffix input_path)
  let output_ext := pyLower (pathSuffix output_path)
  withTempDir tmp (fun s =>
    let extract_dir := tmp ++ "/extracted"
    match convertExtractStage env input_ext input_path extract_dir password s with
    | (.error e, s') => (.error e, s')
    | (.ok _, s') =>
      if output_ext == ".zip" then
        if pyTruthy password then
          create_password_protected_zip env extract_dir output_path
            (password.getD "") compression_level s'
        else zip_directory extract_dir output_path true s'
      else if output_ext == ".7z" then
        create_7z_archive env extract_dir output_path password
          compression_level s'
      else if output_ext == ".rar" then
        zip_to_rar env (extract_dir ++ ".zip") output_path password none
          tmpRar s'
      else
        (.error (.valueError ("Unsupported output format: " ++ output_ext)),
          s')) s

/-- Record returned by `analyze_archive_info`. -/
structure ArchiveInfo where
  format : String
  size : Nat
  files : List String
  compression_ratio : ℚ
  total_uncompressed : Nat
  error : Option String
deriving Repr

/-- Embedding of `analyze_archive_info(archive_path)`: `format` (path
suffix) and `size` (on-disk size) are set before the `try:` block; the
per-format listing and the compression-ratio computation sit inside it,
and any exception is recorded in the `error` field instead of being
raised — the function is total. -/
def analyze_archive_info (env : Env) (archive_path : String) : ArchiveInfo :=
  let format := pyLower (pathSuffix archive_path)
  let size := env.getsize archive_path
  let listing : Except String (List String × Nat) :=
    if format == ".zip" then env.zipList archive_path
    else if format == ".7z" then env.sevenZList archive_path
    else if format == ".rar" && env.rarfileImported then
      env.rarList archive_path
    else .ok ([], 0)
  match listing with
  | .ok (names, total) =>
    { format := format, size := size, files := names
      compression_ratio :=
        if 0 < total then (1 - (size : ℚ) / (total : ℚ)) * 100 else 0
      total_uncompressed := total, error := none }
  | .error msg =>
    { format := format, size := size, files := []
      compression_ratio := 0, total_uncompressed := 0, error := some msg }

/-! Theorems settling the claims. -/

theorem diskClean_rmTree (d : String) (disk : List String) :
    diskClean d (rmTree d disk) = true := by
  unfold diskClean rmTree
  rw [List.all_eq_true]
  intro p hp
  simpa using List.of_mem_filter hp

/-- A concrete environment in which every module is importable, every
tool resolves, and every backend succeeds; used by witnesses. -/
def okEnv : Env where
  rarfileImported := true
  pyminizipImported := true
  which := fun _ => some "/usr/bin/tool"
  zipfileExtract := fun _ _ => .ok ["f.txt"]
  py7zrExtract := fun _ _ => .ok ["f.txt"]
  rarfileExtract := fun _ _ => .ok ["f.txt"]
  tarfileExtract := fun _ => .ok ["f.txt"]
  runTool := fun _ _ => true
  cliExtractMembers := fun _ => ["f.txt"]
  py7zrCreate := fun _ _ => .ok ()
  pyminizip := fun _ _ _ => .ok ()
  zipList := fun _ => .ok (["f.txt"], 200)
  sevenZList := fun _ => .ok (["f.txt"], 200)
  rarList := fun _ => .ok (["f.txt"], 200)
  getsize := fun _ => 100

theorem pathExistsB_iff {p : String} {disk : List String} :
    pathExistsB p disk = true ↔ p ∈ disk := List.elem_iff

theorem self_ne_append_append (a b c : String)
    (h : 0 < b.data.length + c.data.length) : a ≠ (a ++ b) ++ c := by
  intro he
  have hd := congrArg String.data he
  rw [String.data_append, String.data_append, List.append_assoc] at hd
  have hl := congrArg List.length hd
  rw [List.length_append, List.length_append] at hl
  omega

theorem append_ne_of_data_pos (a b : String) (h : 0 < b.data.length) :
    a ++ b ≠ a := by
  intro he
  have hd := congrArg String.data he
  rw [String.data_append] at hd
  have hl := congrArg List.length hd
  rw [List.length_append] at hl
  omega

theorem zip_ne_slash_member (dir n : String) :
    dir ++ ".zip" ≠ (dir ++ "/") ++ n := by
  intro he
  have hd := congrArg String.data he
  rw [String.data_append, String.data_append, String.data_append,
    List.append_assoc] at hd
  have hc := List.append_cancel_left hd
  have hzip : (".zip" : String).data = ['.', 'z', 'i', 'p'] := rfl
  have hslash : ("/" : String).data = ['/'] := rfl
  rw [hzip, hslash] at hc
  simp at hc

theorem isUnder_append_slash (tmp rest : String)
    (hr : ∃ t, rest.data = '/' :: t) : isUnder tmp (tmp ++ rest) = true := by
  unfold isUnder strIsPrefixOf
  rw [Bool.or_eq_true]
  right
  rw [ List.isPrefixOf_iff_prefix, String.data_append, String.data_append]
  obtain ⟨t, ht⟩ := hr
  rw [ht]
  have hslash : ("/" : String).data = ['/'] := rfl
  rw [hslash, List.prefix_append_right_inj]
  exact ⟨t, rfl⟩

theorem mem_foldl_cons_members {d p : String} :
    ∀ (names : List String) (acc : List String),
      p ∈ names.foldl (fun l n => ((d ++ "/") ++ n) :: l) acc →
      p ∈ acc ∨ ∃ n, p = (d ++ "/") ++ n := by
  intro names
  induction names with
  | nil => intro acc hp; exact .inl hp
  | cons m rest ih =>
    intro acc hp
    rcases ih _ hp with h | h
    · rcases List.mem_cons.mp h with h | h
      · exact .inr ⟨m, h⟩
      · exact .inl h
    · exact .inr h

theorem writeMembers_disk_mem {d : String} {names : List String} {s : St}
    {p : String} (hp : p ∈ (writeMembers d names s).disk) :
    p ∈ s.disk ∨ ∃ n, p = (d ++ "/") ++ n := by
  unfold writeMembers at hp
  exact mem_foldl_cons_members names s.disk hp

theorem ensureDirSt_disk_mem {d : String} {s : St} {p : String}
    (hp : p ∈ (ensureDirSt d s).disk) : p ∈ s.disk ∨ p = d := by
  unfold ensureDirSt addPath at hp
  by_cases h : pathExistsB d s.disk = true
  · rw [if_pos h] at hp; exact .inl hp
  · rw [if_neg h] at hp
    rcases List.mem_cons.mp hp with h' | h'
    · exact .inr h'
    · exact .inl h'

theorem extractWith7z_disk_mem (env : Env) (path dir : String)
    (pwd : Option String) (s : St) (p : String)
    (hp : p ∈ (extractWith7z env path dir pwd s).2.disk) :
    p ∈ s.disk ∨ ∃ n, p = (dir ++ "/") ++ n := by
  unfold extractWith7z at hp
  cases hdt : detectTool ["7z", "7za", "7zz"] env.which with
  | none => rw [hdt] at hp; exact .inl hp
  | some z =>
    rw [hdt] at hp
    simp only [recordCall] at hp
    by_cases hr : env.runTool (sevenZExtractCmd z dir path pwd) none = true
    · rw [if_pos hr] at hp
      exact writeMembers_disk_mem hp
    · rw [if_neg hr] at hp
      exact .inl hp

theorem extract_7z_archive_disk_mem (env : Env) (path dir : String)
    (pwd : Option String) (s : St) (p : String)
    (hp : p ∈ (extract_7z_archive env path dir pwd s).2.disk) :
    p ∈ s.disk ∨ p = dir ∨ ∃ n, p = (dir ++ "/") ++ n := by
  unfold extract_7z_archive at hp
  cases ho : env.py7zrExtract path pwd with
  | ok names =>
    rw [ho] at hp
    rcases writeMembers_disk_mem hp with h | h
    · rcases ensureDirSt_disk_mem h with h' | h'
      · exact .inl h'
      · exact .inr (.inl h')
    · exact .inr (.inr h)
  | error e =>
    rw [ho] at hp
    rcases ensureDirSt_disk_mem hp with h | h
    · exact .inl h
    · exact .inr (.inl h)

theorem extract_archive_disk_mem (env : Env) (path dir : String)
    (pwd : Option String) (s : St) (p : String)
    (hp : p ∈ (extract_archive env path dir pwd s).2.disk) :
    p ∈ s.disk ∨ p = dir ∨ ∃ n, p = (dir ++ "/") ++ n := by
  have hafter : ∀ q, q ∈ (ensureDirSt dir s).disk → q ∈ s.disk ∨ q = dir :=
    fun _ h => ensureDirSt_disk_mem h
  unfold extract_archive at hp
  by_cases h1 : pyEndsWith (pyLower path) ".zip" = true
  · rw [if_pos h1] at hp
    cases ho : env.zipfileExtract path
        (if pyTruthy pwd then pwd else none) with
    | ok names =>
      rw [ho] at hp
      rcases writeMembers_disk_mem hp with h | h
      · rcases hafter _ h with h' | h'
        · exact .inl h'
        · exact .inr (.inl h')
      · exact .inr (.inr h)
    | error e =>
      rw [ho] at hp
      rcases hafter _ hp with h | h
      · exact .inl h
      · exact .inr (.inl h)
  · rw [if_neg h1] at hp
    by_cases h2 : (pyEndsWith (pyLower path) ".tar"
        || pyEndsWith (pyLower path) ".tar.gz"
        || pyEndsWith (pyLower path) ".tgz") = true
    · rw [if_pos h2] at hp
      cases ho : env.tarfileExtract path with
      | ok names =>
        rw [ho] at hp
        rcases writeMembers_disk_mem hp with h | h
        · rcases hafter _ h with h' | h'
          · exact .inl h'
          · exact .inr (.inl h')
        · exact .inr (.inr h)
      | error e =>
        rw [ho] at hp
        rcases hafter _ hp with h | h
        · exact .inl h
        · exact .inr (.inl h)
    · rw [if_neg h2] at hp
      by_cases h3 : pyEndsWith (pyLower path) ".rar" = true
      · rw [if_pos h3] at hp
        have hvia7z : ∀ q,
            q ∈ (extractWith7z env path dir pwd (ensureDirSt dir s)).2.disk →
            q ∈ s.disk ∨ q = dir ∨ ∃ n, q = (dir ++ "/") ++ n := by
          intro q hq
          rcases extractWith7z_disk_mem env path dir pwd _ q hq with h | h
          · rcases hafter _ h with h' | h'
            · exact .inl h'
            · exact .inr (.inl h')
          · exact .inr (.inr h)
        by_cases h4 : env.rarfileImported = true
        · rw [if_pos h4] at hp
          cases ho : env.rarfileExtract path pwd with
          | ok names =>
            rw [ho] at hp
            rcases writeMembers_disk_mem hp with h | h
            · rcases hafter _ h with h' | h'
              · exact .inl h'
              · exact .inr (.inl h')
            · exact .inr (.inr h)
          | error e =>
            rw [ho] at hp
            exact hvia7z p hp
        · rw [if_neg h4] at hp
          exact hvia7z p hp
      · rw [if_neg h3] at hp
        rcases hq : extractWith7z env path dir pwd (ensureDirSt dir s)
            with ⟨res, s'⟩
        have hs' : p ∈ s'.disk → p ∈ s.disk ∨ p = dir ∨
            ∃ n, p = (dir ++ "/") ++ n := by
          intro hps'
          have : p ∈ (extractWith7z env path dir pwd
              (ensureDirSt dir s)).2.disk := by rw [hq]; exact hps'
          rcases extractWith7z_disk_mem env path dir pwd _ p this with h | h
          · rcases hafter _ h with h' | h'
            · exact .inl h'
            · exact .inr (.inl h')
          · exact .inr (.inr h)
        rw [hq] at hp
        cases res with
        | ok d' => exact hs' hp
        | error e => exact hs' hp

theorem convertExtractStage_disk_mem (env : Env)
    (ext path dir : String) (pwd : Option String) (s : St) (p : String)
    (hp : p ∈ (convertExtractStage env ext path dir pwd s).2.disk) :
    p ∈ s.disk ∨ p = dir ∨ ∃ n, p = (dir ++ "/") ++ n := by
  unfold convertExtractStage at hp
  by_cases h1 : (ext == ".zip") = true
  · rw [if_pos h1] at hp; exact extract_archive_disk_mem env path dir pwd s p hp
  · rw [if_neg h1] at hp
    by_cases h2 : (ext == ".rar") = true
    · rw [if_pos h2] at hp
      exact extract_archive_disk_mem env path dir pwd s p hp
    · rw [if_neg h2] at hp
      by_cases h3 : (ext == ".7z") = true
      · rw [if_pos h3] at hp
        exact extract_7z_archive_disk_mem env path dir pwd s p hp
      · rw [if_neg h3] at hp
        exact .inl hp

/-- Claim C1: For `convert_archive_format` and the `rar_to_zip` /
`zip_to_rar` helpers: on every exit path — normal return or an exception
from the extraction or the compression stage — no path at or under the
temporary staging directory of that call remains on disk afterwards
(given that, as `tempfile` guarantees, the directory name was fresh). -/
theorem tempdir_removed_on_every_exit
    (env : Env) (input output : String) (password volume : Option String)
    (level : Int) (tmp tmpRar : String) (s : St)
    (hfresh : diskClean tmp s.disk = true) :
    diskClean tmp
      (convert_archive_format env input output password level tmp tmpRar
        s).2.disk = true ∧
    diskClean tmp (rar_to_zip env input output password tmp s).2.disk = true ∧
    diskClean tmp
      (zip_to_rar env input output password volume tmp s).2.disk = true := by
  refine ⟨?_, ?_, ?_⟩
  · unfold convert_archive_format withTempDir
    exact diskClean_rmTree tmp _
  · unfold rar_to_zip
    by_cases h : pathExistsB input s.disk
    · rw [if_neg (by simp [h])]
      unfold withTempDir
      exact diskClean_rmTree tmp _
    · simp only [Bool.not_eq_true] at h
      simp [h, hfresh]
  · unfold zip_to_rar
    by_cases h : pathExistsB input s.disk
    · rw [if_neg (by simp [h])]
      cases hdt : detectTool ["rar", "winrar", "WinRAR"] env.which with
      | none => simpa using hfresh
      | some cli =>
        unfold withTempDir
        exact diskClean_rmTree tmp _
    · simp only [Bool.not_eq_true] at h
      simp [h, hfresh]

/-- Witness for C1 at a concrete run. -/
theorem tempdir_removed_on_every_exit_witness :
    diskClean "T"
      (convert_archive_format okEnv "in.zip" "out.7z" none 5 "T" "T2"
        ⟨["in.zip"], []⟩).2.disk = true ∧
    diskClean "T"
      (rar_to_zip okEnv "in.zip" "out.7z" none "T" ⟨["in.zip"], []⟩).2.disk
      = true ∧
    diskClean "T"
      (zip_to_rar okEnv "in.zip" "out.7z" none none "T"
        ⟨["in.zip"], []⟩).2.disk = true :=
  tempdir_removed_on_every_exit okEnv "in.zip" "out.7z" none none 5 "T" "T2"
    ⟨["in.zip"], []⟩ (by decide)

/-- Claim C10: For every input archive whose extraction stage succeeds and
every output path with suffix `.rar`, `convert_archive_format` raises
`FileNotFoundError` no matter which external tools are installed: the
intermediate path `f"{extract_dir}.zip"` handed to `zip_to_rar` is never
created by the extraction stage, and `zip_to_rar` checks its existence
before doing anything else. -/
theorem convert_to_rar_raises_fileNotFound
    (env : Env) (input output : String) (password : Option String)
    (level : Int) (tmp tmpRar : String) (s : St) (r : String)
    (hout : pyLower (pathSuffix output) = ".rar")
    (hfresh : diskClean tmp s.disk = true)
    (hstage : (convertExtractStage env (pyLower (pathSuffix input)) input
        (tmp ++ "/extracted") password ⟨tmp :: s.disk, s.calls⟩).1 = .ok r) :
    (convert_archive_format env input output password level tmp tmpRar s).1
      = .error (.fileNotFound ((tmp ++ "/extracted") ++ ".zip")) := by
  simp only [convert_archive_format, withTempDir]
  rcases hq : convertExtractStage env (pyLower (pathSuffix input)) input
      (tmp ++ "/extracted") password ⟨tmp :: s.disk, s.calls⟩ with ⟨res, s2⟩
  rw [hq] at hstage
  simp only at hstage
  subst hstage
  simp only [hout]
  rw [if_neg (by decide), if_neg (by decide), if_pos (by rfl)]
  have hnotin : ¬ pathExistsB ((tmp ++ "/extracted") ++ ".zip") s2.disk
      = true := by
    intro hcontra
    have hmem : ((tmp ++ "/extracted") ++ ".zip") ∈ s2.disk :=
      pathExistsB_iff.mp hcontra
    have hmem2 : ((tmp ++ "/extracted") ++ ".zip") ∈
        (convertExtractStage env (pyLower (pathSuffix input)) input
          (tmp ++ "/extracted") password ⟨tmp :: s.disk, s.calls⟩).2.disk := by
      rw [hq]; exact hmem
    rcases convertExtractStage_disk_mem env _ input _ password _ _ hmem2
        with h | h | h
    · rcases List.mem_cons.mp h with h' | h'
      · exact self_ne_append_append tmp "/extracted" ".zip" (by decide) h'.symm
      · have hclean := (List.all_eq_true.mp hfresh) _ h'
        have hunder : isUnder tmp ((tmp ++ "/extracted") ++ ".zip") = true := by
          rw [String.append_assoc]
          exact isUnder_append_slash tmp ("/extracted" ++ ".zip")
            ⟨("extracted.zip").data, rfl⟩
        rw [hunder] at hclean
        simp at hclean
    · exact append_ne_of_data_pos (tmp ++ "/extracted") ".zip" (by decide) h
    · obtain ⟨n, hn⟩ := h
      exact zip_ne_slash_member (tmp ++ "/extracted") n hn
  unfold zip_to_rar
  rw [if_pos hnotin]

/-- Witness for C10: a `.zip` input, a `.rar` output, every external
tool (including the RAR CLI) installed — the conversion still fails with
`FileNotFoundError` on the never-created intermediate path. -/
theorem convert_to_rar_raises_fileNotFound_witness :
    (convert_archive_format okEnv "in.zip" "out.rar" none 5 "T" "T2"
        ⟨["in.zip"], []⟩).1
      = .error (.fileNotFound (("T" ++ "/extracted") ++ ".zip")) :=
  convert_to_rar_raises_fileNotFound okEnv "in.zip" "out.rar" none 5 "T" "T2"
    ⟨["in.zip"], []⟩ "T/extracted" (by decide) (by decide) (by rfl)

theorem pyEndsWith_excl {s a b : String} (ha : pyEndsWith s a = true)
    (h1 : a.data.isSuffixOf b.data = false)
    (h2 : b.data.isSuffixOf a.data = false) :
    pyEndsWith s b = false := by
  unfold pyEndsWith at ha ⊢
  rw [List.isSuffixOf_iff_suffix] at ha
  by_contra hb
  rw [Bool.not_eq_false, List.isSuffixOf_iff_suffix] at hb
  rcases List.suffix_or_suffix_of_suffix ha hb with hsuf | hsuf
  · rw [← List.isSuffixOf_iff_suffix] at hsuf
    rw [hsuf] at h1
    exact absurd h1 (by decide)
  · rw [← List.isSuffixOf_iff_suffix] at hsuf
    rw [hsuf] at h2
    exact absurd h2 (by decide)

theorem ensureDirSt_calls (d : String) (s : St) :
    (ensureDirSt d s).calls = s.calls := by
  unfold ensureDirSt addPath
  split <;> rfl

theorem writeMembers_calls (d : String) (ns : List String) (s : St) :
    (writeMembers d ns s).calls = s.calls := rfl

/-- Claim C2: For every `.rar` input path, `extract_archive` attempts the
in-process `rarfile` reader first; on any failure of that reader, or when
the module is unavailable, it falls back to the external 7-Zip CLI with
`-p<password>` / `-o<destinationDir>` style arguments and succeeds when
the tool runs; when that CLI is also absent, the operation fails with the
tool-not-found `RuntimeError`, and only this final attempt's error is
surfaced — the reader's earlier error is discarded. -/
theorem rar_extraction_fallback
    (env : Env) (path out_dir : String) (password : Option String) (s : St)
    (h : pyEndsWith (pyLower path) ".rar" = true) :
    (∀ names, env.rarfileImported = true →
      env.rarfileExtract path password = .ok names →
      (extract_archive env path out_dir password s).1 = .ok out_dir ∧
      (extract_archive env path out_dir password s).2.calls = s.calls) ∧
    (∀ z, env.rarfileImported = false →
      detectTool ["7z", "7za", "7zz"] env.which = some z →
      env.runTool (sevenZExtractCmd z out_dir path password) none = true →
      (extract_archive env path out_dir password s).1 = .ok out_dir ∧
      BackendCall.subprocessRun (sevenZExtractCmd z out_dir path password)
          none ∈ (extract_archive env path out_dir password s).2.calls) ∧
    (∀ e z, env.rarfileImported = true →
      env.rarfileExtract path password = .error e →
      detectTool ["7z", "7za", "7zz"] env.which = some z →
      env.runTool (sevenZExtractCmd z out_dir path password) none = true →
      (extract_archive env path out_dir password s).1 = .ok out_dir ∧
      BackendCall.subprocessRun (sevenZExtractCmd z out_dir path password)
          none ∈ (extract_archive env path out_dir password s).2.calls) ∧
    (∀ e, (env.rarfileImported = false ∨
        (env.rarfileImported = true ∧
          env.rarfileExtract path password = .error e)) →
      detectTool ["7z", "7za", "7zz"] env.which = none →
      (extract_archive env path out_dir password s).1 =
        .error (.runtimeError
          "7-Zip (7z) not found. Install 7-Zip or add it to PATH.")) ∧
    (∀ z pw, password = some pw → pw ≠ "" →
      ("-p" ++ pw) ∈ sevenZExtractCmd z out_dir path password ∧
      ("-o" ++ out_dir) ∈ sevenZExtractCmd z out_dir path password) := by
  have hz : pyEndsWith (pyLower path) ".zip" = false :=
    pyEndsWith_excl h (by decide) (by decide)
  have ht1 : pyEndsWith (pyLower path) ".tar" = false :=
    pyEndsWith_excl h (by decide) (by decide)
  have ht2 : pyEndsWith (pyLower path) ".tar.gz" = false :=
    pyEndsWith_excl h (by decide) (by decide)
  have ht3 : pyEndsWith (pyLower path) ".tgz" = false :=
    pyEndsWith_excl h (by decide) (by decide)
  refine ⟨?_, ?_, ?_, ?_, ?_⟩
  · intro names himp hok
    unfold extract_archive
    simp [hz, ht1, ht2, ht3, h, himp, hok, ensureDirSt_calls,
      writeMembers_calls]
  · intro z himp hdt hrun
    unfold extract_archive extractWith7z
    simp [hz, ht1, ht2, ht3, h, himp, hdt, hrun, recordCall, writeMembers,
      ensureDirSt_calls]
  · intro e z himp herr hdt hrun
    unfold extract_archive extractWith7z
    simp [hz, ht1, ht2, ht3, h, himp, herr, hdt, hrun, recordCall,
      writeMembers, ensureDirSt_calls]
  · intro e hcase hdt
    unfold extract_archive extractWith7z
    rcases hcase with himp | ⟨himp, herr⟩
    · simp [hz, ht1, ht2, ht3, h, himp, hdt]
    · simp [hz, ht1, ht2, ht3, h, himp, herr, hdt]
  · intro z pw hpw hne
    subst hpw
    unfold sevenZExtractCmd
    have htr : pyTruthy (some pw) = true := by
      unfold pyTruthy
      simpa using hne
    simp only [htr, if_true, Option.getD]
    constructor
    · show ("-p" ++ pw) ∈ List.insertIdx 2 ("-p" ++ pw) _
      simp [List.insertIdx]
    · show ("-o" ++ out_dir) ∈ List.insertIdx 2 ("-p" ++ pw)
        [z, "x", "-y", "-o" ++ out_dir, path]
      simp [List.insertIdx]

/-- An environment where the `rarfile` reader is importable but fails on
every archive, and a 7-Zip CLI is installed and succeeds. -/
def rarFailsEnv : Env :=
  { okEnv with
    rarfileExtract := fun _ _ => .error (.otherError "bad blocks")
    which := fun t => if t == "7z" then some "/usr/bin/7z" else none }

/-- Witness for C2: with the in-process reader failing and the 7-Zip CLI
present, extraction of a `.rar` still succeeds, the CLI is invoked, and
its argument vector carries `-p<password>` and `-o<destinationDir>`. -/
theorem rar_extraction_fallback_witness :
    (extract_archive rarFailsEnv "a.rar" "out" (some "pw")
        ⟨["a.rar"], []⟩).1 = .ok "out" ∧
    BackendCall.subprocessRun
        (sevenZExtractCmd "/usr/bin/7z" "out" "a.rar" (some "pw")) none ∈
      (extract_archive rarFailsEnv "a.rar" "out" (some "pw")
        ⟨["a.rar"], []⟩).2.calls ∧
    ("-p" ++ "pw") ∈ sevenZExtractCmd "/usr/bin/7z" "out" "a.rar" (some "pw") ∧
    ("-o" ++ "out") ∈ sevenZExtractCmd "/usr/bin/7z" "out" "a.rar"
      (some "pw") := by
  have hc := rar_extraction_fallback rarFailsEnv "a.rar" "out" (some "pw")
    ⟨["a.rar"], []⟩ (by decide)
  have h3 := hc.2.2.1 (.otherError "bad blocks") "/usr/bin/7z" rfl rfl rfl rfl
  have h5 := hc.2.2.2.2 "/usr/bin/7z" "pw" rfl (by decide)
  exact ⟨h3.1, h3.2, h5.1, h5.2⟩

/-- Claim C4: For password-protected ZIP (in-process `zipfile` path of
`extract_archive`) and 7z (`extract_7z_archive`): extraction with the
correct password succeeds, and extraction with an incorrect password
surfaces the backend's explicit authentication failure as the
wrong-password error, never as the corrupt-archive error — the module
propagates the backend's exception unchanged, preserving the distinction
whenever the backend signals it. -/
theorem wrong_password_distinguished
    (env : Env) (pathZ path7 out_dir : String) (correct wrong : String)
    (s : St)
    (hzip : pyEndsWith (pyLower pathZ) ".zip" = true)
    (hc : correct ≠ "") (hw : wrong ≠ "") :
    (∀ names, env.zipfileExtract pathZ (some correct) = .ok names →
      (extract_archive env pathZ out_dir (some correct) s).1 = .ok out_dir) ∧
    (env.zipfileExtract pathZ (some wrong) = .error .wrongPassword →
      (extract_archive env pathZ out_dir (some wrong) s).1 =
        .error (.backend .wrongPassword) ∧
      (extract_archive env pathZ out_dir (some wrong) s).1 ≠
        .error (.backend .corruptArchive)) ∧
    (∀ e, env.zipfileExtract pathZ (some wrong) = .error e →
      (extract_archive env pathZ out_dir (some wrong) s).1 =
        .error (.backend e)) ∧
    (∀ names, env.py7zrExtract path7 (some correct) = .ok names →
      (extract_7z_archive env path7 out_dir (some correct) s).1
        = .ok out_dir) ∧
    (env.py7zrExtract path7 (some wrong) = .error .wrongPassword →
      (extract_7z_archive env path7 out_dir (some wrong) s).1 =
        .error (.backend .wrongPassword) ∧
      (extract_7z_archive env path7 out_dir (some wrong) s).1 ≠
        .error (.backend .corruptArchive)) ∧
    (∀ e, env.py7zrExtract path7 (some wrong) = .error e →
      (extract_7z_archive env path7 out_dir (some wrong) s).1 =
        .error (.backend e)) := by
  have htc : pyTruthy (some correct) = true := by
    unfold pyTruthy; simpa using hc
  have htw : pyTruthy (some wrong) = true := by
    unfold pyTruthy; simpa using hw
  refine ⟨?_, ?_, ?_, ?_, ?_, ?_⟩
  · intro names hok
    unfold extract_archive
    simp [hzip, htc, hok]
  · intro herr
    unfold extract_archive
    simp [hzip, htw, herr]
  · intro e herr
    unfold extract_archive
    simp [hzip, htw, herr]
  · intro names hok
    unfold extract_7z_archive
    simp [hok]
  · intro herr
    unfold extract_7z_archive
    simp [herr]
  · intro e herr
    unfold extract_7z_archive
    simp [herr]

/-- Environment whose backends signal an explicit authentication failure
for the password `"bad"` and succeed for the password `"good"`. -/
def pwEnv : Env :=
  { okEnv with
    zipfileExtract := fun _ pw =>
      if pw == some "good" then .ok ["f.txt"] else .error .wrongPassword
    py7zrExtract := fun _ pw =>
      if pw == some "good" then .ok ["f.txt"] else .error .wrongPassword }

/-- Witness for C4 at a concrete archive and passwords. -/
theorem wrong_password_distinguished_witness :
    (extract_archive pwEnv "a.zip" "out" (some "good") ⟨["a.zip"], []⟩).1
      = .ok "out" ∧
    (extract_archive pwEnv "a.zip" "out" (some "bad") ⟨["a.zip"], []⟩).1
      = .error (.backend .wrongPassword) ∧
    (extract_archive pwEnv "a.zip" "out" (some "bad") ⟨["a.zip"], []⟩).1
      ≠ .error (.backend .corruptArchive) ∧
    (extract_7z_archive pwEnv "a.7z" "out" (some "good") ⟨["a.zip"], []⟩).1
      = .ok "out" ∧
    (extract_7z_archive pwEnv "a.7z" "out" (some "bad") ⟨["a.zip"], []⟩).1
      = .error (.backend .wrongPassword) := by
  have hc := wrong_password_distinguished pwEnv "a.zip" "a.7z" "out" "good"
    "bad" ⟨["a.zip"], []⟩ (by decide) (by decide) (by decide)
  have h2 := hc.2.1 rfl
  have h5 := hc.2.2.2.2.1 rfl
  exact ⟨hc.1 ["f.txt"] rfl, h2.1, h2.2, hc.2.2.2.1 ["f.txt"] rfl, h5.1⟩

/-- The spec's valid LZMA2 preset range, 0–9. -/
def lzma2PresetValid (x : Int) : Bool := decide (0 ≤ x) && decide (x ≤ 9)

/-- An environment whose `py7zr` backend enforces the 0–9 LZMA2 preset
range (modelled from the spec's statement of the backend's valid range),
rejecting anything else with a `ValueError`-like failure. -/
def presetCheckingEnv : Env :=
  { okEnv with
    py7zrCreate := fun _ filters =>
      if filters.all (fun f => lzma2PresetValid f.preset) then .ok ()
      else .error (.otherError "ValueError: invalid compression preset") }

/-- Claim C5 counterexample: At compression level 15 the compressor does
not clamp: `create_7z_archive` hands the backend the filter list
`[{id: FILTER_LZMA2, preset: 15}]` — a preset outside the backend's
valid range 0–9 — and with the backend enforcing that range, compression
fails instead of succeeding. -/
theorem compression_level_not_clamped_counterexample :
    BackendCall.py7zrCreateCall "src" "out.7z" none
        [⟨"FILTER_LZMA2", 15⟩] ∈
      (create_7z_archive presetCheckingEnv "src" "out.7z" none 15
        ⟨[], []⟩).2.calls ∧
    lzma2PresetValid 15 = false ∧
    (create_7z_archive presetCheckingEnv "src" "out.7z" none 15
        ⟨[], []⟩).1 =
      .error (.backend (.otherError
        "ValueError: invalid compression preset")) := by
  refine ⟨by decide, by decide, rfl⟩

/-- Claim C5 amended: Every compression-level input is passed through to
the underlying backend verbatim, with no clamping or mapping: the
LZMA2 filter built by `create_7z_archive` carries exactly the given
level as its preset, and `create_password_protected_zip` (when
`pyminizip` is importable) hands `pyminizip.compress_multiple` exactly
the given level. -/
theorem compression_level_passed_verbatim
    (env : Env) (src out7 outZ : String) (password : Option String)
    (pw : String) (level : Int) (s : St)
    (hpm : env.pyminizipImported = true) :
    BackendCall.py7zrCreateCall src out7 password
        [⟨"FILTER_LZMA2", level⟩] ∈
      (create_7z_archive env src out7 password level s).2.calls ∧
    BackendCall.pyminizipCompressCall
        (filesUnder src (ensureDirSt (pathParent outZ) s).disk) outZ pw level ∈
      (create_password_protected_zip env src outZ pw level s).2.calls := by
  constructor
  · unfold create_7z_archive
    cases ho : env.py7zrCreate password [⟨"FILTER_LZMA2", level⟩] <;>
      simp [ho, recordCall, addPath, ensureDirSt_calls]
  · unfold create_password_protected_zip
    rw [if_neg (by simp [hpm])]
    cases ho : env.pyminizip outZ pw level <;>
      simp [ho, recordCall, addPath, ensureDirSt_calls]

/-- Witness for the amended C5 at level 15. -/
theorem compression_level_passed_verbatim_witness :
    BackendCall.py7zrCreateCall "src" "out.7z" none
        [⟨"FILTER_LZMA2", 15⟩] ∈
      (create_7z_archive okEnv "src" "out.7z" none 15 ⟨[], []⟩).2.calls ∧
    BackendCall.pyminizipCompressCall
        (filesUnder "src" (ensureDirSt (pathParent "out.zip")
          ⟨[], []⟩).disk) "out.zip" "pw" 15 ∈
      (create_password_protected_zip okEnv "src" "out.zip" "pw" 15
        ⟨[], []⟩).2.calls :=
  compression_level_passed_verbatim okEnv "src" "out.7z" "out.zip" none "pw"
    15 ⟨[], []⟩ rfl

/-- Claim C6: `analyze_archive_info` is a total function (it never raises):
the `format` field (the lower-cased path suffix) and the `size` field
(the on-disk size) are always set — they are computed before the `try:`
block — and any error while opening or listing the archive is recorded
in the report's `error` field instead of being thrown. -/
theorem analyze_never_raises_best_effort
    (env : Env) (path : String) (msg : String) :
    (analyze_archive_info env path).format = pyLower (pathSuffix path) ∧
    (analyze_archive_info env path).size = env.getsize path ∧
    (pyLower (pathSuffix path) = ".zip" → env.zipList path = .error msg →
      (analyze_archive_info env path).error = some msg) ∧
    (pyLower (pathSuffix path) = ".7z" → env.sevenZList path = .error msg →
      (analyze_archive_info env path).error = some msg) ∧
    (pyLower (pathSuffix path) = ".rar" → env.rarfileImported = true →
      env.rarList path = .error msg →
      (analyze_archive_info env path).error = some msg) := by
  refine ⟨?_, ?_, ?_, ?_, ?_⟩
  · simp only [analyze_archive_info]
    split <;> rfl
  · simp only [analyze_archive_info]
    split <;> rfl
  · intro hfmt herr
    simp only [analyze_archive_info, hfmt]
    rw [if_pos (by decide), herr]
  · intro hfmt herr
    simp only [analyze_archive_info, hfmt]
    rw [if_neg (by decide), if_pos (by decide), herr]
  · intro hfmt himp herr
    simp only [analyze_archive_info, hfmt, himp]
    rw [if_neg (by decide), if_neg (by decide), if_pos (by decide), herr]

/-- An environment whose listing backends all fail. -/
def listFailEnv : Env :=
  { okEnv with zipList := fun _ => .error "Bad magic number for file header" }

/-- Witness for C6: a `.zip` whose listing fails still yields a report
with format and size set and the message recorded. -/
theorem analyze_never_raises_best_effort_witness :
    (analyze_archive_info listFailEnv "a.zip").format =
      pyLower (pathSuffix "a.zip") ∧
    (analyze_archive_info listFailEnv "a.zip").size =
      listFailEnv.getsize "a.zip" ∧
    (analyze_archive_info listFailEnv "a.zip").error =
      some "Bad magic number for file header" := by
  have h := analyze_never_raises_best_effort listFailEnv "a.zip"
    "Bad magic number for file header"
  exact ⟨h.1, h.2.1, h.2.2.1 (by decide) rfl⟩

/-- Claim C7: The compression ratio reported by `analyze_archive_info`
equals `(1 - size/totalUncompressed) * 100` (exact rational arithmetic)
whenever the reported total uncompressed size is positive, and equals 0
whenever that total is zero — which is also what the report carries when
the size is unknown (unlisted format or listing error). -/
theorem compression_ratio_formula (env : Env) (path : String) :
    (0 < (analyze_archive_info env path).total_uncompressed →
      (analyze_archive_info env path).compression_ratio =
        (1 - ((analyze_archive_info env path).size : ℚ) /
          ((analyze_archive_info env path).total_uncompressed : ℚ)) * 100) ∧
    ((analyze_archive_info env path).total_uncompressed = 0 →
      (analyze_archive_info env path).compression_ratio = 0) := by
  simp only [analyze_archive_info]
  rcases hl : (if (pyLower (pathSuffix path) == ".zip") = true then
      env.zipList path
    else if (pyLower (pathSuffix path) == ".7z") = true then
      env.sevenZList path
    else if (pyLower (pathSuffix path) == ".rar" && env.rarfileImported)
        = true then env.rarList path
    else .ok ([], 0)) with msg | ⟨names, total⟩
  · dsimp only
    exact ⟨fun h => absurd h (by omega), fun _ => rfl⟩
  · dsimp only
    constructor
    · intro hpos
      rw [if_pos hpos]
    · intro hzero
      subst hzero
      rw [if_neg (by omega)]

/-- Witness for C7 at a 100-byte archive holding 200 uncompressed bytes:
the ratio is 50%. -/
theorem compression_ratio_formula_witness :
    0 < (analyze_archive_info okEnv "a.zip").total_uncompressed ∧
    (analyze_archive_info okEnv "a.zip").compression_ratio =
      (1 - ((analyze_archive_info okEnv "a.zip").size : ℚ) /
        ((analyze_archive_info okEnv "a.zip").total_uncompressed : ℚ)) * 100 :=
  ⟨by decide, (compression_ratio_formula okEnv "a.zip").1 (by decide)⟩

/-- Whether a backend call is a subprocess invocation carrying the
`-tzip` flag (the 7-Zip "make a ZIP" mode). -/
def mentionsTzip : BackendCall → Bool
  | .subprocessRun cmd _ => cmd.contains "-tzip"
  | _ => false

/-- An environment where `pyminizip` is absent but a 7-Zip CLI resolves. -/
def noPyminizipEnv : Env := { okEnv with pyminizipImported := false }

/-- Claim C8 counterexample: With `pyminizip` absent but the 7-Zip CLI
installed, converting to a password-protected ZIP fails with
`ImportError` — not with a tool-not-found error, and without ever
invoking the 7-Zip CLI with `-tzip`: there is no fallback, although a
backend (the CLI) was available. -/
theorem password_zip_no_fallback_counterexample :
    detectTool ["7z", "7za", "7zz"] noPyminizipEnv.which
      = some "/usr/bin/tool" ∧
    (convert_archive_format noPyminizipEnv "in.zip" "out.zip" (some "pw") 5
        "T" "T2" ⟨["in.zip"], []⟩).1 = .error (.importError "pyminizip") ∧
    ((convert_archive_format noPyminizipEnv "in.zip" "out.zip" (some "pw") 5
        "T" "T2" ⟨["in.zip"], []⟩).2.calls.all
      (fun c => ! mentionsTzip c)) = true := by
  exact ⟨rfl, rfl, by decide⟩

/-- Claim C8 amended: Password-protected ZIP creation in
`convert_archive_format` is a distinct code path (the pyminizip-based
`create_password_protected_zip`), but it requires the in-process encoder
alone: when `pyminizip` is not importable the conversion fails with
`ImportError` without consulting the 7-Zip CLI.  The `-tzip -p<password>`
CLI path exists only in the separate helper
`create_password_zip_alternative` — which no conversion invokes — and
that helper fails with the tool-not-found `RuntimeError` exactly when no
7-Zip CLI resolves. -/
theorem password_zip_distinct_path_no_fallback
    (env : Env) (input output srcA outA : String) (pw : String) (level : Int)
    (tmp tmpRar : String) (s : St) (r : String)
    (hpw : pw ≠ "")
    (hout : pyLower (pathSuffix output) = ".zip")
    (hstage : (convertExtractStage env (pyLower (pathSuffix input)) input
        (tmp ++ "/extracted") (some pw) ⟨tmp :: s.disk, s.calls⟩).1
        = .ok r) :
    (env.pyminizipImported = false →
      (convert_archive_format env input output (some pw) level tmp tmpRar
        s).1 = .error (.importError "pyminizip")) ∧
    (∀ u, env.pyminizipImported = true →
      env.pyminizip output pw level = .ok u →
      (convert_archive_format env input output (some pw) level tmp tmpRar
          s).1 = .ok output ∧
      ∃ files, BackendCall.pyminizipCompressCall files output pw level ∈
        (convert_archive_format env input output (some pw) level tmp tmpRar
          s).2.calls) ∧
    (detectTool ["7z", "7za", "7zz"] env.which = none →
      (create_password_zip_alternative env srcA outA pw s).1 =
        .error (.runtimeError
          "7-Zip required for password-protected archives")) ∧
    (∀ z, detectTool ["7z", "7za", "7zz"] env.which = some z →
      BackendCall.subprocessRun [z, "a", "-tzip", "-p" ++ pw, outA,
          srcA ++ "/*"] none ∈
        (create_password_zip_alternative env srcA outA pw s).2.calls) := by
  have htr : pyTruthy (some pw) = true := by
    unfold pyTruthy; simpa using hpw
  simp only [convert_archive_format, withTempDir]
  rcases hq : convertExtractStage env (pyLower (pathSuffix input)) input
      (tmp ++ "/extracted") (some pw) ⟨tmp :: s.disk, s.calls⟩ with ⟨res, s2⟩
  rw [hq] at hstage
  simp only at hstage
  subst hstage
  refine ⟨?_, ?_, ?_, ?_⟩
  · intro hpm
    simp [hout, htr, create_password_protected_zip, hpm]
  · intro u hpm hok
    simp [hout, htr, create_password_protected_zip, hpm, hok, recordCall,
      addPath, ensureDirSt_calls]
  · intro hdt
    unfold create_password_zip_alternative
    rw [hdt]
  · intro z hdt
    unfold create_password_zip_alternative
    rw [hdt]
    simp [recordCall, addPath]
    rcases hrun : env.runTool [z, "a", "-tzip", "-p" ++ pw, outA,
        srcA ++ "/*"] none <;> simp [hrun]

/-- Witness for the amended C8: `pyminizip` present — the pyminizip path
runs; and the standalone `-tzip` helper with no CLI — tool-not-found. -/
theorem password_zip_distinct_path_no_fallback_witness :
    (convert_archive_format okEnv "in.zip" "out.zip" (some "pw") 5 "T" "T2"
        ⟨["in.zip"], []⟩).1 = .ok "out.zip" ∧
    (∃ files, BackendCall.pyminizipCompressCall files "out.zip" "pw" 5 ∈
      (convert_archive_format okEnv "in.zip" "out.zip" (some "pw") 5 "T" "T2"
        ⟨["in.zip"], []⟩).2.calls) ∧
    BackendCall.subprocessRun ["/usr/bin/tool", "a", "-tzip",
        "-p" ++ "pw", "o.zip", "src" ++ "/*"] none ∈
      (create_password_zip_alternative okEnv "src" "o.zip" "pw"
        ⟨[], []⟩).2.calls := by
  have h := password_zip_distinct_path_no_fallback okEnv "in.zip" "out.zip"
    "src" "o.zip" "pw" 5 "T" "T2" ⟨["in.zip"], []⟩ "T/extracted"
    (by decide) (by decide) (by rfl)
  have h2 := h.2.1 () rfl rfl
  exact ⟨h2.1, h2.2, h.2.2.2 "/usr/bin/tool" rfl⟩

/-- The five archive kinds of the spec's data model. -/
inductive ArchiveKind where
  | zip
  | tar
  | tarGz
  | sevenZip
  | rar
deriving DecidableEq, Repr

/-- Modelled from the spec: `classify(path) -> ArchiveKind` as a pure
function of the path's suffix over the five kinds, `none` standing for
the `UnsupportedFormat` failure. -/
def specClassify (suffix : String) : Option ArchiveKind :=
  if suffix == ".zip" then some .zip
  else if suffix == ".tar" then some .tar
  else if suffix == ".tar.gz" || suffix == ".tgz" then some .tarGz
  else if suffix == ".7z" then some .sevenZip
  else if suffix == ".rar" then some .rar
  else none

/-- Claim C9 counterexample: `.tar` is one of the five kinds, yet
`convert_archive_format` rejects a `.tar` input with the
unsupported-input `ValueError` — the conversion operation does not
accept all five kinds as input. -/
theorem conversion_rejects_tar_counterexample :
    specClassify ".tar" = some ArchiveKind.tar ∧
    (convert_archive_format okEnv "a.tar" "out.zip" none 5 "T" "T2"
        ⟨["a.tar"], []⟩).1 =
      .error (.valueError "Unsupported input format: .tar") := by
  exact ⟨rfl, rfl⟩

/-- Claim C9 amended: `convert_archive_format` classifies its input by
the lower-cased path suffix but accepts only the three kinds
{Zip, Rar, SevenZip}: suffixes `.tar`, `.tgz` and `.tar.gz` (whose
`Path.suffix` is `.gz`) are rejected with the unsupported-input
`ValueError` even though Tar and TarGz are among the spec's five kinds,
while `.zip`, `.rar` and `.7z` inputs proceed (shown converting
end-to-end in an environment where every backend succeeds). -/
theorem conversion_input_formats
    (env : Env) (output : String) (password : Option String) (level : Int)
    (tmp tmpRar : String) (s : St) :
    (convert_archive_format env "a.tar" output password level tmp tmpRar
        s).1 = .error (.valueError "Unsupported input format: .tar") ∧
    (convert_archive_format env "a.tgz" output password level tmp tmpRar
        s).1 = .error (.valueError "Unsupported input format: .tgz") ∧
    (convert_archive_format env "a.tar.gz" output password level tmp tmpRar
        s).1 = .error (.valueError "Unsupported input format: .gz") ∧
    (convert_archive_format okEnv "a.zip" "o.7z" none 5 "T" "T2"
        ⟨["a.zip"], []⟩).1 = .ok "o.7z" ∧
    (convert_archive_format okEnv "a.rar" "o.7z" none 5 "T" "T2"
        ⟨["a.rar"], []⟩).1 = .ok "o.7z" ∧
    (convert_archive_format okEnv "a.7z" "o.zip" none 5 "T" "T2"
        ⟨["a.7z"], []⟩).1 = .ok "o.zip" := by
  exact ⟨rfl, rfl, rfl, rfl, rfl, rfl⟩

end ArchiveConv
